import Mathlib

/-!
Verification of the animated sort-visualization engine in `PythonProject.py`.

The engine state (`SortVisualizer`) is embedded shallowly:

* the Tk canvas becomes an association list from item id to an `Item`
  (flat coordinate list, fill color, text), with `create_rectangle` /
  `create_text` allocating increasing ids, `canvas.move` shifting
  alternating x/y coordinates, and `itemconfig` updating the fill;
* Python floats become `ℚ` (all arithmetic here is exact affine
  arithmetic, so `ℚ` computes the same values);
* student rows `(id, name, roll, marks)` become the structure `Record`;
  the numeric sort key `d[3]` is the `marks` field;
* the shared `self.running` flag, written concurrently by `stop()`, is
  modelled by an oracle `sig : Nat → Bool` giving the value observed by
  the k-th read of the flag inside a sort run; `time.sleep` and the
  table callback have no effect on engine state and are dropped.
-/

/-- One student row `(id, name, roll, marks)`; index 3 is `marks`. -/
structure Record where
  sid : Int
  name : String
  roll : String
  marks : Int
deriving DecidableEq, Repr, Inhabited

/-- A canvas item: its flat Tk coordinate list, fill color and text. -/
structure Item where
  coords : List ℚ
  fill : String
  text : String
deriving DecidableEq, Repr

/-- The Tk canvas: item ids paired with items, in creation order. -/
abbrev Canvas := List (Nat × Item)

/-- Look an item up by id (ids are unique; first match). -/
def canvasFind : Canvas → Nat → Option Item
  | [], _ => none
  | p :: rest, n => if p.1 = n then some p.2 else canvasFind rest n

/-- `canvas.coords(id)`: the coordinate list, `[]` for a missing item. -/
def canvasCoords (c : Canvas) (n : Nat) : List ℚ :=
  match canvasFind c n with
  | some it => it.coords
  | none => []

/-- Apply `g` to the item with id `n`, if present. -/
def canvasModify (c : Canvas) (n : Nat) (g : Item → Item) : Canvas :=
  c.map (fun p => if p.1 = n then (p.1, g p.2) else p)

/-- `canvas.itemconfig(id, fill=f)`; missing ids are ignored (the one
call site that can see a destroyed id wraps this in `try/except`). -/
def canvasSetFill (c : Canvas) (n : Nat) (f : String) : Canvas :=
  canvasModify c n (fun it => { it with fill := f })

/-- Shift a flat Tk coordinate list `[x0, y0, x1, y1, ...]` by `(dx, dy)`. -/
def shiftCoords : List ℚ → ℚ → ℚ → List ℚ
  | [], _, _ => []
  | [x], dx, _ => [x + dx]
  | x :: y :: r, dx, dy => (x + dx) :: (y + dy) :: shiftCoords r dx dy

/-- `canvas.move(id, dx, dy)`. -/
def canvasMove (c : Canvas) (n : Nat) (dx dy : ℚ) : Canvas :=
  canvasModify c n (fun it => { it with coords := shiftCoords it.coords dx dy })

/-- The `SortVisualizer` state: canvas, next Tk item id, geometry,
the parallel lists `data` / `bar_items` / `text_items`, and the
cooperative cancellation flag `running`. -/
structure VState where
  canvas : Canvas
  nextId : Nat
  width : ℚ
  height : ℚ
  padding : ℚ
  data : List Record
  bar_items : List Nat
  text_items : List (Nat × Nat)
  running : Bool
deriving DecidableEq, Repr

/-- Allocate a canvas item (`create_rectangle` / `create_text`) and
return its id. -/
def canvasCreate (st : VState) (cs : List ℚ) (f t : String) : VState × Nat :=
  ({ st with canvas := st.canvas ++ [(st.nextId, ⟨cs, f, t⟩)],
             nextId := st.nextId + 1 }, st.nextId)

/-- Maximum of the `marks` fields (`max(d[3] for d in self.data)`);
the `else 1` branch of the source corresponds to the empty case. -/
def maxMarks (l : List Record) : Int :=
  match l.map (·.marks) with
  | [] => 1
  | x :: xs => xs.foldl max x

/-- The per-record body of the drawing loop in `load_data`, iterated with
the running index `i` (Python's `enumerate`). -/
def loadBars (bar_width max_val : ℚ) : VState → Nat → List Record → VState
  | st, _, [] => st
  | st, i, d :: rest =>
    let x0 : ℚ := st.padding + i * (bar_width + 10)
    let y1 : ℚ := st.height - 40
    let bar_height : ℚ :=
      if max_val > 0 then ((d.marks : ℚ) / max_val) * (st.height - 100) else 10
    let y0 : ℚ := y1 - bar_height
    let res1 := canvasCreate st [x0, y0, x0 + bar_width, y1] "#2b7a78" ""
    let res2 := canvasCreate res1.1 [x0 + bar_width / 2, y0 - 15] "white" (toString d.marks)
    let res3 := canvasCreate res2.1 [x0 + bar_width / 2, y1 + 10] "white" d.name
    loadBars bar_width max_val
      { res3.1 with bar_items := res3.1.bar_items ++ [res1.2],
                    text_items := res3.1.text_items ++ [(res2.2, res3.2)] }
      (i + 1) rest

/-- `SortVisualizer.load_data`: clear the canvas and the internal lists,
copy the rows in, and (for a non-empty input) draw one bar plus two
texts per record. -/
def load_data (st : VState) (data_list : List Record) : VState :=
  let st0 : VState :=
    { st with canvas := [], bar_items := [], text_items := [], data := data_list }
  let n := data_list.length
  if n = 0 then st0
  else
    let max_val : ℚ := (maxMarks data_list : Int)
    let total_gap : ℚ := ((n - 1 : Nat) : ℚ) * 10
    let available_width : ℚ := max 100 (st.width - 2 * st.padding)
    let bar_width : ℚ := max 10 ((available_width - total_gap) / (n : ℚ))
    loadBars bar_width max_val st0 0 data_list

/-- `SortVisualizer.get_speed` as a function of the slider value:
`max(0.001, (101 - val) / 700)`. -/
def get_speed (val : ℚ) : ℚ :=
  max (1 / 1000) ((101 - val) / 700)

/-- One sub-step of `move_bar`: move the bar rectangle and its two
texts by the per-step increment. -/
def moveStep (st : VState) (index : Nat) (sdx sdy : ℚ) : VState :=
  let rect := st.bar_items.getD index 0
  let tn := st.text_items.getD index (0, 0)
  let c1 := canvasMove st.canvas rect sdx sdy
  let c2 := canvasMove c1 tn.1 sdx sdy
  let c3 := canvasMove c2 tn.2 sdx sdy
  { st with canvas := c3 }

/-- The `for _ in range(steps)` loop of `move_bar`. -/
def moveLoop (index : Nat) (sdx sdy : ℚ) : VState → Nat → VState
  | st, 0 => st
  | st, k + 1 => moveLoop index sdx sdy (moveStep st index sdx sdy) k

/-- `SortVisualizer.move_bar` (the source always uses `steps=20`):
out-of-range indices return immediately. -/
def move_bar (st : VState) (index : Nat) (dx dy : ℚ) (steps : Nat) : VState :=
  if index < st.bar_items.length then
    moveLoop index (dx / steps) (dy / steps) st steps
  else st

/-- Swap the entries of `l` at `i` and `j`, as the tuple assignment
`l[i], l[j] = l[j], l[i]` does (callers guard the bounds). -/
def listSwap [Inhabited α] (l : List α) (i j : Nat) : List α :=
  (l.set i (l.getD j default)).set j (l.getD i default)

/-- `SortVisualizer.swap_bars`: self-swap and out-of-range indices are
no-ops; otherwise animate (lift, slide, drop) and then swap the three
parallel lists. -/
def swap_bars (st : VState) (i j : Nat) : VState :=
  if i = j then st
  else if i < st.bar_items.length ∧ j < st.bar_items.length then
    let coords_i := canvasCoords st.canvas (st.bar_items.getD i 0)
    let coords_j := canvasCoords st.canvas (st.bar_items.getD j 0)
    if coords_i = [] ∨ coords_j = [] then st
    else
      let x1 := coords_i.getD 0 0
      let x2 := coords_j.getD 0 0
      let dx := x2 - x1
      let st1 := move_bar st i 0 (-30) 20
      let st2 := move_bar st1 j 0 (-30) 20
      let st3 := move_bar st2 i dx 0 20
      let st4 := move_bar st3 j (-dx) 0 20
      let st5 := move_bar st4 i 0 30 20
      let st6 := move_bar st5 j 0 30 20
      { st6 with bar_items := listSwap st6.bar_items i j,
                 text_items := listSwap st6.text_items i j,
                 data := listSwap st6.data i j }
  else st

/-- `SortVisualizer.highlight`: recolor the bars at the in-range
indices, silently skipping out-of-range ones. -/
def highlight (st : VState) (indices : List Nat) (color : String) : VState :=
  let c1 := indices.foldl
    (fun c i =>
      if i < st.bar_items.length then canvasSetFill c (st.bar_items.getD i 0) color
      else c)
    st.canvas
  { st with canvas := c1 }

/-- `SortVisualizer.reset_colors`: restore the default fill on every
bar (`try/except TclError` makes a destroyed id a no-op). -/
def reset_colors (st : VState) : VState :=
  let c1 := st.bar_items.foldl (fun c b => canvasSetFill c b "#2b7a78") st.canvas
  { st with canvas := c1 }

/-- Key comparison helper: `self.data[k][3]` at position `k`. -/
def keyAt (l : List Record) (k : Nat) : Int :=
  (l.getD k default).marks

/-- The inner `while j > 0 and data[j-1][3] > data[j][3]` loop of
`insertion_sort`. The argument is the current position of the moving
element; `c` counts the reads of the shared `running` flag, answered by
the oracle `sig`. -/
def insInnerV (sig : Nat → Bool) : VState → Nat → Nat → VState × Nat
  | st, c, 0 => (st, c)
  | st, c, j + 1 =>
    if keyAt st.data j > keyAt st.data (j + 1) then
      if sig c then
        let st1 := highlight st [j + 1, j] "#cc241d"
        let st2 := swap_bars st1 (j + 1) j
        let st3 := highlight st2 [j] "#66bb6a"
        insInnerV sig st3 (c + 1) j
      else (st, c + 1)
    else (st, c)

/-- The outer `for i in range(1, n)` loop of `insertion_sort`, with the
remaining iteration count as fuel. -/
def insOuterV (sig : Nat → Bool) : VState → Nat → Nat → Nat → VState × Nat
  | st, c, _, 0 => (st, c)
  | st, c, i, r + 1 =>
    if sig c then
      let st1 := highlight st [i] "#fdd835"
      let res := insInnerV sig st1 (c + 1) i
      let st3 := reset_colors res.1
      insOuterV sig st3 res.2 (i + 1) r
    else (st, c + 1)

/-- `SortVisualizer.insertion_sort`: set `running`, run the loop, apply
the final whole-sequence highlight, clear `running`. -/
def insertion_sort (sig : Nat → Bool) (st : VState) : VState :=
  let st0 := { st with running := true }
  let n := st0.data.length
  let res := insOuterV sig st0 0 1 (n - 1)
  let st2 := highlight res.1 (List.range n) "#388e3c"
  { st2 with running := false }

/-- The inner `for j in range(i+1, n)` scan of `selection_sort`,
returning the state, the flag-read counter, and `min_idx`. -/
def selInnerV (sig : Nat → Bool) (i : Nat) : VState → Nat → Nat → Nat → Nat → VState × Nat × Nat
  | st, c, m, _, 0 => (st, c, m)
  | st, c, m, j, r + 1 =>
    if sig c then
      let st1 := highlight st [j] "#cc241d"
      let m1 := if keyAt st1.data j < keyAt st1.data m then j else m
      let st2 := reset_colors st1
      let st3 := highlight st2 [i, m1] "#fdd835"
      selInnerV sig i st3 (c + 1) m1 (j + 1) r
    else (st, c + 1, m)

/-- The outer `for i in range(n)` loop of `selection_sort`. -/
def selOuterV (sig : Nat → Bool) (n : Nat) : VState → Nat → Nat → Nat → VState × Nat
  | st, c, _, 0 => (st, c)
  | st, c, i, r + 1 =>
    if sig c then
      let st1 := highlight st [i] "#fdd835"
      let res := selInnerV sig i st1 (c + 1) i (i + 1) (n - (i + 1))
      if sig res.2.1 then
        let st3 := if res.2.2 ≠ i then swap_bars res.1 i res.2.2 else res.1
        let st4 := highlight st3 (List.range (i + 1)) "#66bb6a"
        selOuterV sig n st4 (res.2.1 + 1) (i + 1) r
      else (res.1, res.2.1 + 1)
    else (st, c + 1)

/-- `SortVisualizer.selection_sort`. -/
def selection_sort (sig : Nat → Bool) (st : VState) : VState :=
  let st0 := { st with running := true }
  let n := st0.data.length
  let res := selOuterV sig n st0 0 0 n
  let st2 := highlight res.1 (List.range n) "#388e3c"
  { st2 with running := false }

/-- `SortVisualizer.stop`. -/
def vstop (st : VState) : VState :=
  { st with running := false }

/-- Oracle for an uncancelled run: every read of `running` sees `true`. -/
def sigTrue : Nat → Bool := fun _ => true

/-- The slice of `StudentApp` state the start handlers touch. -/
structure AppState where
  vis : VState
  sortThreadAlive : Bool
  threadsStarted : Nat
  info_label : String
deriving DecidableEq, Repr

/-- Outcome a start handler signals to the user. -/
inductive StartResult
  | started
  | busy
  | noData
deriving DecidableEq, Repr

/-- `StudentApp.start_insertion_sort`: busy check, empty-rows check,
then reload the visualizer and start the background thread. -/
def start_insertion_sort (app : AppState) (rows : List Record) : StartResult × AppState :=
  if app.sortThreadAlive then (.busy, app)
  else if rows = [] then (.noData, app)
  else (.started,
    { app with vis := load_data app.vis rows,
               info_label := "Insertion Sort running...",
               sortThreadAlive := true,
               threadsStarted := app.threadsStarted + 1 })

/-- `StudentApp.start_selection_sort`. -/
def start_selection_sort (app : AppState) (rows : List Record) : StartResult × AppState :=
  if app.sortThreadAlive then (.busy, app)
  else if rows = [] then (.noData, app)
  else (.started,
    { app with vis := load_data app.vis rows,
               info_label := "Selection Sort running...",
               sortThreadAlive := true,
               threadsStarted := app.threadsStarted + 1 })

/-- Error condition of a raw Python list subscript. -/
inductive IdxErr
  | indexOutOfRange
deriving DecidableEq, Repr

/-- `self.data[i]` (the Sequence State `get`): a raw subscript, which
raises `IndexError` outside `[0, len(data))`. -/
def dataGet (st : VState) (i : Nat) : Except IdxErr Record :=
  match st.data[i]? with
  | some r => Except.ok r
  | none => Except.error IdxErr.indexOutOfRange

/-- Well-formedness established by `load_data`: the three parallel
lists have equal length and every bar id is a live canvas item with a
non-empty coordinate list. -/
def WF (st : VState) : Prop :=
  st.data.length = st.bar_items.length ∧
  st.bar_items.length = st.text_items.length ∧
  ∀ b ∈ st.bar_items, canvasCoords st.canvas b ≠ []

instance : DecidablePred WF := fun st => by
  unfold WF; infer_instance

/-- The fill color of canvas item `n`, if the item exists. -/
def itemFill (c : Canvas) (n : Nat) : Option String :=
  (canvasFind c n).map Item.fill

/-- Adjacent non-decrease of the keys among the first `b` positions. -/
def SortedBelow (l : List Record) (b : Nat) : Prop :=
  ∀ u, u + 1 < b → keyAt l u ≤ keyAt l (u + 1)

/-- The ordering the sorts establish: non-decreasing `marks` keys. -/
def SortedByKey (l : List Record) : Prop :=
  List.Pairwise (fun a b : Record => a.marks ≤ b.marks) l

/-- A concrete well-formed one-bar state, for witnesses. -/
def ex0 : VState :=
  { canvas := [(1, ⟨[40, 100, 90, 320], "#2b7a78", ""⟩),
               (2, ⟨[65, 85], "white", "30"⟩),
               (3, ⟨[65, 330], "white", "A"⟩)],
    nextId := 4, width := 620, height := 360, padding := 40,
    data := [⟨1, "A", "R1", 30⟩], bar_items := [1], text_items := [(2, 3)],
    running := false }

/-- A concrete well-formed two-bar state whose records are out of order. -/
def ex1 : VState :=
  { canvas := [(1, ⟨[0, 4, 2, 8], "#2b7a78", ""⟩),
               (2, ⟨[1, 3], "white", "30"⟩),
               (3, ⟨[1, 9], "white", "A"⟩),
               (4, ⟨[4, 2, 6, 8], "#2b7a78", ""⟩),
               (5, ⟨[5, 1], "white", "10"⟩),
               (6, ⟨[5, 9], "white", "B"⟩)],
    nextId := 7, width := 620, height := 360, padding := 40,
    data := [⟨1, "A", "R1", 30⟩, ⟨2, "B", "R2", 10⟩],
    bar_items := [1, 4], text_items := [(2, 3), (5, 6)],
    running := false }

/-- A concrete three-bar state (records with keys 30, 10, 20). -/
def ex2 : VState :=
  { canvas := [(1, ⟨[0, 4, 2, 8], "#2b7a78", ""⟩),
               (2, ⟨[1, 3], "white", "30"⟩),
               (3, ⟨[1, 9], "white", "A"⟩),
               (4, ⟨[4, 2, 6, 8], "#2b7a78", ""⟩),
               (5, ⟨[5, 1], "white", "10"⟩),
               (6, ⟨[5, 9], "white", "B"⟩),
               (7, ⟨[8, 3, 10, 8], "#2b7a78", ""⟩),
               (8, ⟨[9, 2], "white", "20"⟩),
               (9, ⟨[9, 9], "white", "C"⟩)],
    nextId := 10, width := 620, height := 360, padding := 40,
    data := [⟨1, "A", "R1", 30⟩, ⟨2, "B", "R2", 10⟩, ⟨3, "C", "R3", 20⟩],
    bar_items := [1, 4, 7], text_items := [(2, 3), (5, 6), (8, 9)],
    running := false }

/-- Oracle for a run cancelled after two reads of the `running` flag. -/
def sigCancel : Nat → Bool := fun k => decide (k < 2)

/-- An app state with an active sort thread. -/
def exAppBusy : AppState :=
  { vis := ex0, sortThreadAlive := true, threadsStarted := 1, info_label := "Ready" }

/-- An app state with no active sort thread. -/
def exAppIdle : AppState :=
  { vis := ex0, sortThreadAlive := false, threadsStarted := 0, info_label := "Ready" }

/-! ### Basic list-swap lemmas -/

theorem length_listSwap [Inhabited α] (l : List α) (i j : Nat) :
    (listSwap l i j).length = l.length := by
  simp [listSwap]

theorem getElem?_listSwap_ne [Inhabited α] (l : List α) (i j k : Nat)
    (hki : k ≠ i) (hkj : k ≠ j) : (listSwap l i j)[k]? = l[k]? := by
  unfold listSwap
  rw [List.getElem?_set_ne (fun h => hkj h.symm), List.getElem?_set_ne (fun h => hki h.symm)]

theorem getElem?_listSwap_right [Inhabited α] (l : List α) (i j : Nat)
    (hi : i < l.length) (hj : j < l.length) : (listSwap l i j)[j]? = l[i]? := by
  unfold listSwap
  rw [List.getElem?_set_self (by simpa using hj)]
  simp [List.getD_eq_getElem?_getD, List.getElem?_eq_getElem hi]

theorem getElem?_listSwap_left [Inhabited α] (l : List α) (i j : Nat)
    (hij : i ≠ j) (hi : i < l.length) (hj : j < l.length) :
    (listSwap l i j)[i]? = l[j]? := by
  unfold listSwap
  rw [List.getElem?_set_ne (fun h => hij h.symm), List.getElem?_set_self hi]
  simp [List.getD_eq_getElem?_getD, List.getElem?_eq_getElem hj]

theorem keyAt_listSwap_ne (l : List Record) (i j k : Nat)
    (hki : k ≠ i) (hkj : k ≠ j) : keyAt (listSwap l i j) k = keyAt l k := by
  unfold keyAt
  rw [List.getD_eq_getElem?_getD, List.getD_eq_getElem?_getD,
    getElem?_listSwap_ne l i j k hki hkj]

theorem keyAt_listSwap_right (l : List Record) (i j : Nat)
    (hi : i < l.length) (hj : j < l.length) :
    keyAt (listSwap l i j) j = keyAt l i := by
  unfold keyAt
  rw [List.getD_eq_getElem?_getD, List.getD_eq_getElem?_getD,
    getElem?_listSwap_right l i j hi hj]

theorem keyAt_listSwap_left (l : List Record) (i j : Nat)
    (hij : i ≠ j) (hi : i < l.length) (hj : j < l.length) :
    keyAt (listSwap l i j) i = keyAt l j := by
  unfold keyAt
  rw [List.getD_eq_getElem?_getD, List.getD_eq_getElem?_getD,
    getElem?_listSwap_left l i j hij hi hj]

theorem getD_cons_set_perm [Inhabited α] :
    ∀ (t : List α) (m : Nat) (a : α), m < t.length →
      List.Perm ((t.getD m default) :: t.set m a) (a :: t) := by
  intro t
  induction t with
  | nil => intro m a h; simp at h
  | cons b t' ih =>
    intro m a h
    cases m with
    | zero => simpa using List.Perm.swap a b t'
    | succ m =>
      have h' : m < t'.length := by simpa using h
      have e1 : (b :: t').getD (m + 1) default :: (b :: t').set (m + 1) a
          = t'.getD m default :: b :: t'.set m a := by simp [List.set]
      rw [e1]
      have p1 : List.Perm (t'.getD m default :: b :: t'.set m a)
          (b :: t'.getD m default :: t'.set m a) := List.Perm.swap _ _ _
      have p2 : List.Perm (b :: t'.getD m default :: t'.set m a)
          (b :: a :: t') := List.Perm.cons b (ih m a h')
      have p3 : List.Perm (b :: a :: t') (a :: b :: t') := List.Perm.swap _ _ _
      exact p1.trans (p2.trans p3)

theorem listSwap_perm [Inhabited α] :
    ∀ (l : List α) (i j : Nat), i < l.length → j < l.length →
      List.Perm (listSwap l i j) l := by
  intro l
  induction l with
  | nil => intro i j hi; simp at hi
  | cons a t ih =>
    intro i j hi hj
    cases i with
    | zero =>
      cases j with
      | zero => simp [listSwap]
      | succ m =>
        have hm : m < t.length := by simpa using hj
        have : listSwap (a :: t) 0 (m + 1) = t.getD m default :: t.set m a := by
          simp [listSwap, List.set]
        rw [this]
        exact getD_cons_set_perm t m a hm
    | succ m =>
      cases j with
      | zero =>
        have hm : m < t.length := by simpa using hi
        have : listSwap (a :: t) (m + 1) 0 = t.getD m default :: t.set m a := by
          simp [listSwap, List.set]
        rw [this]
        exact getD_cons_set_perm t m (a : α) hm
      | succ k =>
        have hm : m < t.length := by simpa using hi
        have hk : k < t.length := by simpa using hj
        have : listSwap (a :: t) (m + 1) (k + 1) = a :: listSwap t m k := by
          simp [listSwap, List.set]
        rw [this]
        exact List.Perm.cons a (ih m k hm hk)

/-! ### Frame lemmas: which fields each operation leaves unchanged -/

theorem highlight_data (st : VState) (idxs : List Nat) (col : String) :
    (highlight st idxs col).data = st.data := rfl

theorem highlight_bar_items (st : VState) (idxs : List Nat) (col : String) :
    (highlight st idxs col).bar_items = st.bar_items := rfl

theorem highlight_text_items (st : VState) (idxs : List Nat) (col : String) :
    (highlight st idxs col).text_items = st.text_items := rfl

theorem highlight_running (st : VState) (idxs : List Nat) (col : String) :
    (highlight st idxs col).running = st.running := rfl

theorem reset_colors_data (st : VState) : (reset_colors st).data = st.data := rfl

theorem reset_colors_bar_items (st : VState) :
    (reset_colors st).bar_items = st.bar_items := rfl

theorem reset_colors_text_items (st : VState) :
    (reset_colors st).text_items = st.text_items := rfl

theorem moveStep_data (st : VState) (idx : Nat) (sdx sdy : ℚ) :
    (moveStep st idx sdx sdy).data = st.data := rfl

theorem moveStep_bar_items (st : VState) (idx : Nat) (sdx sdy : ℚ) :
    (moveStep st idx sdx sdy).bar_items = st.bar_items := rfl

theorem moveStep_text_items (st : VState) (idx : Nat) (sdx sdy : ℚ) :
    (moveStep st idx sdx sdy).text_items = st.text_items := rfl

theorem moveLoop_data (idx : Nat) (sdx sdy : ℚ) :
    ∀ (k : Nat) (st : VState), (moveLoop idx sdx sdy st k).data = st.data := by
  intro k
  induction k with
  | zero => intro st; rfl
  | succ k ih => intro st; rw [moveLoop, ih, moveStep_data]

theorem moveLoop_bar_items (idx : Nat) (sdx sdy : ℚ) :
    ∀ (k : Nat) (st : VState), (moveLoop idx sdx sdy st k).bar_items = st.bar_items := by
  intro k
  induction k with
  | zero => intro st; rfl
  | succ k ih => intro st; rw [moveLoop, ih, moveStep_bar_items]

theorem moveLoop_text_items (idx : Nat) (sdx sdy : ℚ) :
    ∀ (k : Nat) (st : VState), (moveLoop idx sdx sdy st k).text_items = st.text_items := by
  intro k
  induction k with
  | zero => intro st; rfl
  | succ k ih => intro st; rw [moveLoop, ih, moveStep_text_items]

theorem move_bar_data (st : VState) (idx : Nat) (dx dy : ℚ) (steps : Nat) :
    (move_bar st idx dx dy steps).data = st.data := by
  unfold move_bar
  split
  · exact moveLoop_data idx _ _ steps st
  · rfl

theorem move_bar_bar_items (st : VState) (idx : Nat) (dx dy : ℚ) (steps : Nat) :
    (move_bar st idx dx dy steps).bar_items = st.bar_items := by
  unfold move_bar
  split
  · exact moveLoop_bar_items idx _ _ steps st
  · rfl

theorem move_bar_text_items (st : VState) (idx : Nat) (dx dy : ℚ) (steps : Nat) :
    (move_bar st idx dx dy steps).text_items = st.text_items := by
  unfold move_bar
  split
  · exact moveLoop_text_items idx _ _ steps st
  · rfl

/-! ### Canvas-coordinate preservation -/

theorem canvasFind_modify (c : Canvas) (n : Nat) (g : Item → Item) (m : Nat) :
    canvasFind (canvasModify c n g) m =
      if m = n then (canvasFind c m).map g else canvasFind c m := by
  induction c with
  | nil => simp [canvasModify, canvasFind]
  | cons p rest ih =>
    simp only [canvasModify] at ih
    by_cases h3 : m = n
    · subst h3
      by_cases h2 : p.1 = m
      · simp [canvasModify, canvasFind, h2]
      · simp [canvasModify, canvasFind, h2, ih]
    · by_cases h2 : p.1 = m
      · have h1 : ¬p.1 = n := fun hn => h3 (h2.symm.trans hn)
        simp [canvasModify, canvasFind, h1, h2, h3, Ne.symm h3]
      · by_cases h1 : p.1 = n
        · simp [canvasModify, canvasFind, h1, h2, h3, Ne.symm h3, ih]
        · simp [canvasModify, canvasFind, h1, h2, h3, ih]

theorem canvasCoords_setFill (c : Canvas) (n : Nat) (f : String) (m : Nat) :
    canvasCoords (canvasSetFill c n f) m = canvasCoords c m := by
  unfold canvasCoords canvasSetFill
  rw [canvasFind_modify]
  by_cases h : m = n
  · subst h
    cases canvasFind c m <;> simp
  · simp [h]

theorem shiftCoords_nil_iff (cs : List ℚ) (dx dy : ℚ) :
    shiftCoords cs dx dy = [] ↔ cs = [] := by
  match cs with
  | [] => simp [shiftCoords]
  | [x] => simp [shiftCoords]
  | x :: y :: r => simp [shiftCoords]

theorem canvasCoords_move (c : Canvas) (n : Nat) (dx dy : ℚ) (m : Nat) :
    canvasCoords (canvasMove c n dx dy) m =
      if m = n then shiftCoords (canvasCoords c m) dx dy else canvasCoords c m := by
  unfold canvasCoords canvasMove
  rw [canvasFind_modify]
  by_cases h : m = n
  · subst h
    cases canvasFind c m <;> simp [shiftCoords]
  · simp [h]

theorem canvasCoords_move_ne_nil (c : Canvas) (n : Nat) (dx dy : ℚ) (m : Nat) :
    canvasCoords (canvasMove c n dx dy) m ≠ [] ↔ canvasCoords c m ≠ [] := by
  rw [canvasCoords_move]
  by_cases h : m = n
  · simp [h, shiftCoords_nil_iff]
  · simp [h]

theorem highlight_coords (st : VState) (idxs : List Nat) (col : String) (m : Nat) :
    canvasCoords (highlight st idxs col).canvas m = canvasCoords st.canvas m := by
  show canvasCoords (idxs.foldl _ st.canvas) m = _
  generalize st.canvas = c
  induction idxs generalizing c with
  | nil => rfl
  | cons i rest ih =>
    rw [List.foldl_cons]
    rw [ih]
    split
    · rw [canvasCoords_setFill]
    · rfl

theorem reset_colors_coords (st : VState) (m : Nat) :
    canvasCoords (reset_colors st).canvas m = canvasCoords st.canvas m := by
  show canvasCoords (st.bar_items.foldl _ st.canvas) m = _
  generalize st.bar_items = bs
  generalize st.canvas = c
  induction bs generalizing c with
  | nil => rfl
  | cons b rest ih =>
    rw [List.foldl_cons, ih, canvasCoords_setFill]

theorem moveStep_coords_ne_nil (st : VState) (idx : Nat) (sdx sdy : ℚ) (m : Nat) :
    canvasCoords (moveStep st idx sdx sdy).canvas m ≠ [] ↔
      canvasCoords st.canvas m ≠ [] := by
  show canvasCoords (canvasMove (canvasMove (canvasMove _ _ _ _) _ _ _) _ _ _) m ≠ [] ↔ _
  rw [canvasCoords_move_ne_nil, canvasCoords_move_ne_nil, canvasCoords_move_ne_nil]

theorem moveLoop_coords_ne_nil (idx : Nat) (sdx sdy : ℚ) (m : Nat) :
    ∀ (k : Nat) (st : VState),
      canvasCoords (moveLoop idx sdx sdy st k).canvas m ≠ [] ↔
        canvasCoords st.canvas m ≠ [] := by
  intro k
  induction k with
  | zero => intro st; exact Iff.rfl
  | succ k ih =>
    intro st
    rw [moveLoop, ih, moveStep_coords_ne_nil]

theorem move_bar_coords_ne_nil (st : VState) (idx : Nat) (dx dy : ℚ) (steps : Nat)
    (m : Nat) :
    canvasCoords (move_bar st idx dx dy steps).canvas m ≠ [] ↔
      canvasCoords st.canvas m ≠ [] := by
  unfold move_bar
  split
  · exact moveLoop_coords_ne_nil idx _ _ m steps st
  · exact Iff.rfl

/-! ### Well-formedness preservation -/

theorem WF_highlight (st : VState) (idxs : List Nat) (col : String) :
    WF (highlight st idxs col) ↔ WF st := by
  simp only [WF, highlight_data, highlight_bar_items, highlight_text_items,
    highlight_coords]

theorem WF_reset_colors (st : VState) : WF (reset_colors st) ↔ WF st := by
  simp only [WF, reset_colors_data, reset_colors_bar_items, reset_colors_text_items,
    reset_colors_coords]

theorem swap_bars_self (st : VState) (i : Nat) : swap_bars st i i = st := by
  simp [swap_bars]

theorem swap_bars_oob (st : VState) (i j : Nat)
    (h : ¬(i < st.bar_items.length ∧ j < st.bar_items.length)) :
    swap_bars st i j = st := by
  by_cases hij : i = j
  · subst hij; exact swap_bars_self st i
  · simp [swap_bars, hij, h]

theorem getD_mem_of_lt (l : List Nat) (i : Nat) (hi : i < l.length) :
    l.getD i 0 ∈ l := by
  rw [List.getD_eq_getElem l 0 hi]
  exact List.getElem_mem hi

theorem swap_bars_spec (st : VState) (i j : Nat) (hWF : WF st) (hij : i ≠ j)
    (hi : i < st.data.length) (hj : j < st.data.length) :
    (swap_bars st i j).data = listSwap st.data i j ∧
      (swap_bars st i j).bar_items = listSwap st.bar_items i j ∧
      (swap_bars st i j).text_items = listSwap st.text_items i j := by
  obtain ⟨hlen1, hlen2, hcoords⟩ := hWF
  have hi' : i < st.bar_items.length := hlen1 ▸ hi
  have hj' : j < st.bar_items.length := hlen1 ▸ hj
  have hci : canvasCoords st.canvas (st.bar_items.getD i 0) ≠ [] :=
    hcoords _ (getD_mem_of_lt st.bar_items i hi')
  have hcj : canvasCoords st.canvas (st.bar_items.getD j 0) ≠ [] :=
    hcoords _ (getD_mem_of_lt st.bar_items j hj')
  have hcond : ¬(canvasCoords st.canvas (st.bar_items.getD i 0) = [] ∨
      canvasCoords st.canvas (st.bar_items.getD j 0) = []) := by
    push_neg
    exact ⟨hci, hcj⟩
  have hb : i < st.bar_items.length ∧ j < st.bar_items.length := ⟨hi', hj'⟩
  simp only [swap_bars, if_neg hij, if_pos hb, if_neg hcond]
  refine ⟨?_, ?_, ?_⟩ <;>
    simp [move_bar_data, move_bar_bar_items, move_bar_text_items]

theorem swap_bars_coords_ne_nil (st : VState) (i j : Nat) (m : Nat) :
    canvasCoords (swap_bars st i j).canvas m ≠ [] ↔
      canvasCoords st.canvas m ≠ [] := by
  by_cases hij : i = j
  · subst hij; rw [swap_bars_self]
  · by_cases hb : i < st.bar_items.length ∧ j < st.bar_items.length
    · by_cases hc : canvasCoords st.canvas (st.bar_items.getD i 0) = [] ∨
          canvasCoords st.canvas (st.bar_items.getD j 0) = []
      · simp only [swap_bars, if_neg hij, if_pos hb, if_pos hc]
      · simp only [swap_bars, if_neg hij, if_pos hb, if_neg hc]
        simp [move_bar_coords_ne_nil]
    · rw [swap_bars_oob st i j hb]

theorem swap_bars_WF (st : VState) (i j : Nat) (hWF : WF st) :
    WF (swap_bars st i j) := by
  by_cases hij : i = j
  · subst hij; rw [swap_bars_self]; exact hWF
  · by_cases hb : i < st.bar_items.length ∧ j < st.bar_items.length
    · have hi : i < st.data.length := hWF.1 ▸ hb.1
      have hj : j < st.data.length := hWF.1 ▸ hb.2
      obtain ⟨e1, e2, e3⟩ := swap_bars_spec st i j hWF hij hi hj
      refine ⟨?_, ?_, ?_⟩
      · rw [e1, e2, length_listSwap, length_listSwap]; exact hWF.1
      · rw [e2, e3, length_listSwap, length_listSwap]; exact hWF.2.1
      · intro b hbmem
        rw [e2] at hbmem
        have : b ∈ st.bar_items :=
          (listSwap_perm st.bar_items i j hb.1 hb.2).mem_iff.mp hbmem
        rw [swap_bars_coords_ne_nil]
        exact hWF.2.2 b this
    · rw [swap_bars_oob st i j hb]; exact hWF

theorem swap_bars_data_perm (st : VState) (i j : Nat) (hWF : WF st) :
    List.Perm (swap_bars st i j).data st.data := by
  by_cases hij : i = j
  · subst hij; rw [swap_bars_self]
  · by_cases hb : i < st.bar_items.length ∧ j < st.bar_items.length
    · have hi : i < st.data.length := hWF.1 ▸ hb.1
      have hj : j < st.data.length := hWF.1 ▸ hb.2
      rw [(swap_bars_spec st i j hWF hij hi hj).1]
      exact listSwap_perm st.data i j hi hj
    · rw [swap_bars_oob st i j hb]

/-! ### One-step unfolding equations for the sort loops -/

theorem insInnerV_succ (sig : Nat → Bool) (st : VState) (c j : Nat) :
    insInnerV sig st c (j + 1) =
      if keyAt st.data j > keyAt st.data (j + 1) then
        if sig c then
          insInnerV sig
            (highlight (swap_bars (highlight st [j + 1, j] "#cc241d") (j + 1) j)
              [j] "#66bb6a")
            (c + 1) j
        else (st, c + 1)
      else (st, c) := rfl

theorem insOuterV_succ (sig : Nat → Bool) (st : VState) (c i r : Nat) :
    insOuterV sig st c i (r + 1) =
      if sig c then
        insOuterV sig
          (reset_colors (insInnerV sig (highlight st [i] "#fdd835") (c + 1) i).1)
          (insInnerV sig (highlight st [i] "#fdd835") (c + 1) i).2 (i + 1) r
      else (st, c + 1) := rfl

theorem selInnerV_succ (sig : Nat → Bool) (i : Nat) (st : VState) (c m j r : Nat) :
    selInnerV sig i st c m j (r + 1) =
      if sig c then
        selInnerV sig i
          (highlight (reset_colors (highlight st [j] "#cc241d"))
            [i, if keyAt st.data j < keyAt st.data m then j else m] "#fdd835")
          (c + 1) (if keyAt st.data j < keyAt st.data m then j else m) (j + 1) r
      else (st, c + 1, m) := rfl

theorem selOuterV_succ (sig : Nat → Bool) (n : Nat) (st : VState) (c i r : Nat) :
    selOuterV sig n st c i (r + 1) =
      if sig c then
        let res := selInnerV sig i (highlight st [i] "#fdd835") (c + 1) i (i + 1) (n - (i + 1))
        if sig res.2.1 then
          selOuterV sig n
            (highlight (if res.2.2 ≠ i then swap_bars res.1 i res.2.2 else res.1)
              (List.range (i + 1)) "#66bb6a")
            (res.2.1 + 1) (i + 1) r
        else (res.1, res.2.1 + 1)
      else (st, c + 1) := rfl

/-! ### Well-formedness and permutation through the sort loops -/

theorem WF_running (st : VState) (b : Bool) : WF { st with running := b } ↔ WF st :=
  Iff.rfl

theorem insInnerV_results (sig : Nat → Bool) :
    ∀ (j : Nat) (st : VState) (c : Nat), WF st →
      WF (insInnerV sig st c j).1 ∧
        List.Perm (insInnerV sig st c j).1.data st.data := by
  intro j
  induction j with
  | zero => intro st c h; exact ⟨h, List.Perm.refl _⟩
  | succ j ih =>
    intro st c h
    rw [insInnerV_succ]
    by_cases hkey : keyAt st.data j > keyAt st.data (j + 1)
    · rw [if_pos hkey]
      by_cases hsig : sig c
      · rw [if_pos hsig]
        have h1 : WF (highlight st [j + 1, j] "#cc241d") :=
          (WF_highlight st _ _).mpr h
        have h2 : WF (swap_bars (highlight st [j + 1, j] "#cc241d") (j + 1) j) :=
          swap_bars_WF _ _ _ h1
        have h3 : WF (highlight (swap_bars (highlight st [j + 1, j] "#cc241d") (j + 1) j)
            [j] "#66bb6a") := (WF_highlight _ _ _).mpr h2
        obtain ⟨w, p⟩ := ih _ (c + 1) h3
        refine ⟨w, p.trans ?_⟩
        rw [highlight_data]
        have p2 := swap_bars_data_perm (highlight st [j + 1, j] "#cc241d") (j + 1) j h1
        rw [highlight_data] at p2
        exact p2
      · rw [if_neg hsig]; exact ⟨h, List.Perm.refl _⟩
    · rw [if_neg hkey]; exact ⟨h, List.Perm.refl _⟩

theorem insOuterV_results (sig : Nat → Bool) :
    ∀ (r : Nat) (st : VState) (c i : Nat), WF st →
      WF (insOuterV sig st c i r).1 ∧
        List.Perm (insOuterV sig st c i r).1.data st.data := by
  intro r
  induction r with
  | zero => intro st c i h; exact ⟨h, List.Perm.refl _⟩
  | succ r ih =>
    intro st c i h
    rw [insOuterV_succ]
    by_cases hsig : sig c
    · rw [if_pos hsig]
      have h1 : WF (highlight st [i] "#fdd835") := (WF_highlight st _ _).mpr h
      obtain ⟨w2, p2⟩ := insInnerV_results sig i (highlight st [i] "#fdd835") (c + 1) h1
      have h3 : WF (reset_colors (insInnerV sig (highlight st [i] "#fdd835") (c + 1) i).1) :=
        (WF_reset_colors _).mpr w2
      obtain ⟨w4, p4⟩ := ih _ (insInnerV sig (highlight st [i] "#fdd835") (c + 1) i).2 (i + 1) h3
      refine ⟨w4, p4.trans ?_⟩
      rw [reset_colors_data]
      exact p2.trans (by rw [highlight_data])
    · rw [if_neg hsig]; exact ⟨h, List.Perm.refl _⟩

theorem insertion_sort_eq (sig : Nat → Bool) (st : VState) :
    insertion_sort sig st =
      { highlight (insOuterV sig { st with running := true } 0 1 (st.data.length - 1)).1
          (List.range st.data.length) "#388e3c" with running := false } := rfl

theorem insertion_sort_results (sig : Nat → Bool) (st : VState) (h : WF st) :
    WF (insertion_sort sig st) ∧
      List.Perm (insertion_sort sig st).data st.data := by
  rw [insertion_sort_eq]
  have h0 : WF { st with running := true } := (WF_running st true).mpr h
  obtain ⟨w, p⟩ := insOuterV_results sig (st.data.length - 1) { st with running := true } 0 1 h0
  refine ⟨(WF_running _ false).mpr ((WF_highlight _ _ _).mpr w), ?_⟩
  show List.Perm (highlight (insOuterV sig { st with running := true } 0 1
      (st.data.length - 1)).1 (List.range st.data.length) "#388e3c").data st.data
  rw [highlight_data]
  exact p

theorem selInnerV_state (sig : Nat → Bool) (i : Nat) :
    ∀ (r : Nat) (st : VState) (c m j : Nat), WF st →
      WF (selInnerV sig i st c m j r).1 ∧
        (selInnerV sig i st c m j r).1.data = st.data := by
  intro r
  induction r with
  | zero => intro st c m j h; exact ⟨h, rfl⟩
  | succ r ih =>
    intro st c m j h
    rw [selInnerV_succ]
    by_cases hsig : sig c
    · rw [if_pos hsig]
      have h3 : WF (highlight (reset_colors (highlight st [j] "#cc241d"))
          [i, if keyAt st.data j < keyAt st.data m then j else m] "#fdd835") :=
        (WF_highlight _ _ _).mpr ((WF_reset_colors _).mpr ((WF_highlight _ _ _).mpr h))
      obtain ⟨w, e⟩ := ih _ (c + 1) (if keyAt st.data j < keyAt st.data m then j else m)
        (j + 1) h3
      refine ⟨w, ?_⟩
      rw [e, highlight_data, reset_colors_data, highlight_data]
    · rw [if_neg hsig]; exact ⟨h, rfl⟩

theorem selOuterV_results (sig : Nat → Bool) (n : Nat) :
    ∀ (r : Nat) (st : VState) (c i : Nat), WF st →
      WF (selOuterV sig n st c i r).1 ∧
        List.Perm (selOuterV sig n st c i r).1.data st.data := by
  intro r
  induction r with
  | zero => intro st c i h; exact ⟨h, List.Perm.refl _⟩
  | succ r ih =>
    intro st c i h
    rw [selOuterV_succ]
    by_cases hsig : sig c
    · rw [if_pos hsig]
      have h1 : WF (highlight st [i] "#fdd835") := (WF_highlight st _ _).mpr h
      obtain ⟨w2, e2⟩ := selInnerV_state sig i (n - (i + 1))
        (highlight st [i] "#fdd835") (c + 1) i (i + 1) h1
      by_cases hsig2 : sig (selInnerV sig i (highlight st [i] "#fdd835") (c + 1) i
          (i + 1) (n - (i + 1))).2.1
      · simp only [if_pos hsig2]
        have w3 : WF (if (selInnerV sig i (highlight st [i] "#fdd835") (c + 1) i
            (i + 1) (n - (i + 1))).2.2 ≠ i then
              swap_bars (selInnerV sig i (highlight st [i] "#fdd835") (c + 1) i
                (i + 1) (n - (i + 1))).1 i
                (selInnerV sig i (highlight st [i] "#fdd835") (c + 1) i
                  (i + 1) (n - (i + 1))).2.2
            else (selInnerV sig i (highlight st [i] "#fdd835") (c + 1) i
              (i + 1) (n - (i + 1))).1) := by
          split
          · exact swap_bars_WF _ _ _ w2
          · exact w2
        have p3 : List.Perm (if (selInnerV sig i (highlight st [i] "#fdd835") (c + 1) i
            (i + 1) (n - (i + 1))).2.2 ≠ i then
              swap_bars (selInnerV sig i (highlight st [i] "#fdd835") (c + 1) i
                (i + 1) (n - (i + 1))).1 i
                (selInnerV sig i (highlight st [i] "#fdd835") (c + 1) i
                  (i + 1) (n - (i + 1))).2.2
            else (selInnerV sig i (highlight st [i] "#fdd835") (c + 1) i
              (i + 1) (n - (i + 1))).1).data st.data := by
          have base : List.Perm (selInnerV sig i (highlight st [i] "#fdd835") (c + 1) i
              (i + 1) (n - (i + 1))).1.data st.data := by
            rw [e2, highlight_data]
          split
          · exact (swap_bars_data_perm _ _ _ w2).trans base
          · exact base
        have h4 : WF (highlight (if (selInnerV sig i (highlight st [i] "#fdd835") (c + 1) i
            (i + 1) (n - (i + 1))).2.2 ≠ i then
              swap_bars (selInnerV sig i (highlight st [i] "#fdd835") (c + 1) i
                (i + 1) (n - (i + 1))).1 i
                (selInnerV sig i (highlight st [i] "#fdd835") (c + 1) i
                  (i + 1) (n - (i + 1))).2.2
            else (selInnerV sig i (highlight st [i] "#fdd835") (c + 1) i
              (i + 1) (n - (i + 1))).1) (List.range (i + 1)) "#66bb6a") :=
          (WF_highlight _ _ _).mpr w3
        obtain ⟨w5, p5⟩ := ih _ _ (i + 1) h4
        refine ⟨w5, p5.trans ?_⟩
        rw [highlight_data]
        exact p3
      · simp only [if_neg hsig2]
        refine ⟨w2, ?_⟩
        rw [e2, highlight_data]
    · rw [if_neg hsig]; exact ⟨h, List.Perm.refl _⟩

theorem selection_sort_eq (sig : Nat → Bool) (st : VState) :
    selection_sort sig st =
      { highlight (selOuterV sig st.data.length { st with running := true } 0 0
          st.data.length).1 (List.range st.data.length) "#388e3c" with
            running := false } := rfl

theorem selection_sort_results (sig : Nat → Bool) (st : VState) (h : WF st) :
    WF (selection_sort sig st) ∧
      List.Perm (selection_sort sig st).data st.data := by
  rw [selection_sort_eq]
  have h0 : WF { st with running := true } := (WF_running st true).mpr h
  obtain ⟨w, p⟩ := selOuterV_results sig st.data.length st.data.length
    { st with running := true } 0 0 h0
  refine ⟨(WF_running _ false).mpr ((WF_highlight _ _ _).mpr w), ?_⟩
  show List.Perm (highlight (selOuterV sig st.data.length { st with running := true } 0 0
      st.data.length).1 (List.range st.data.length) "#388e3c").data st.data
  rw [highlight_data]
  exact p

/-! ### load_data bookkeeping -/

theorem loadBars_state (bw mv : ℚ) :
    ∀ (rows : List Record) (st : VState) (i : Nat),
      (loadBars bw mv st i rows).data = st.data ∧
        (loadBars bw mv st i rows).bar_items.length = st.bar_items.length + rows.length ∧
        (loadBars bw mv st i rows).text_items.length = st.text_items.length + rows.length := by
  intro rows
  induction rows with
  | nil => intro st i; exact ⟨rfl, by simp [loadBars], by simp [loadBars]⟩
  | cons d rest ih =>
    intro st i
    simp only [loadBars]
    refine ⟨?_, ?_, ?_⟩
    · rw [(ih _ (i + 1)).1]
      rfl
    · rw [(ih _ (i + 1)).2.1]
      show (st.bar_items ++ [st.nextId]).length + rest.length = _
      simp
      omega
    · rw [(ih _ (i + 1)).2.2]
      show (st.text_items ++ [(st.nextId + 1, st.nextId + 1 + 1)]).length + rest.length = _
      simp
      omega

theorem load_data_lengths (st : VState) (rows : List Record) :
    (load_data st rows).data = rows ∧
      (load_data st rows).bar_items.length = rows.length ∧
      (load_data st rows).text_items.length = rows.length := by
  unfold load_data
  by_cases h : rows.length = 0
  · rw [if_pos h]
    have : rows = [] := List.length_eq_zero.mp h
    subst this
    exact ⟨rfl, rfl, rfl⟩
  · rw [if_neg h]
    obtain ⟨e1, e2, e3⟩ := loadBars_state
      (max 10 ((max 100 (st.width - 2 * st.padding) - ((rows.length - 1 : Nat) : ℚ) * 10) / (rows.length : ℚ)))
      ((maxMarks rows : Int) : ℚ) rows
      { st with canvas := [], bar_items := [], text_items := [], data := rows } 0
    exact ⟨e1, by rw [e2]; simp, by rw [e3]; simp⟩

/-! ### Claim theorems: speed mapping, no-op swaps, app handlers -/

/-- Claim C5: `get_speed` computes `max(0.001, (101 - val) / 700)`; it is
antitone in the slider value, and its result is at least the floor
`0.001`, hence strictly positive. -/
theorem claim_c5 :
    (∀ a b : ℚ, a < b → get_speed b ≤ get_speed a) ∧
      ∀ v : ℚ, 1 / 1000 ≤ get_speed v ∧ 0 < get_speed v := by
  constructor
  · intro a b hab
    unfold get_speed
    exact max_le_max le_rfl (by linarith)
  · intro v
    refine ⟨le_max_left _ _, lt_of_lt_of_le (by norm_num) (le_max_left _ _)⟩

/-- Witness for C5 at slider values 10 < 50. -/
theorem claim_c5_witness :
    (10 : ℚ) < 50 ∧ get_speed 50 ≤ get_speed 10 ∧ 1 / 1000 ≤ get_speed 50 :=
  ⟨by norm_num, claim_c5.1 10 50 (by norm_num), (claim_c5.2 50).1⟩

/-- Claim C8: `swap_bars` with `i == j` is a no-op, and `swap_bars` with
an out-of-range index is a no-op: the whole state (data, bar and text
handles, and all rendered canvas items) is returned unchanged. -/
theorem claim_c8 :
    (∀ (st : VState) (i : Nat), swap_bars st i i = st) ∧
      ∀ (st : VState) (i j : Nat),
        ¬(i < st.bar_items.length ∧ j < st.bar_items.length) → swap_bars st i j = st :=
  ⟨swap_bars_self, swap_bars_oob⟩

/-- Witness for C8: a self-swap and an out-of-range swap on a concrete
one-bar state. -/
theorem claim_c8_witness :
    swap_bars ex0 0 0 = ex0 ∧
      ¬(0 < ex0.bar_items.length ∧ 5 < ex0.bar_items.length) ∧
        swap_bars ex0 0 5 = ex0 :=
  ⟨claim_c8.1 ex0 0, by decide, claim_c8.2 ex0 0 5 (by decide)⟩

/-- Claim C4: starting either sort while the sort thread is alive
returns the Busy signal and leaves the whole app state (visualizer
included) unchanged; no thread is created. -/
theorem claim_c4 (app : AppState) (rows : List Record)
    (h : app.sortThreadAlive = true) :
    start_insertion_sort app rows = (StartResult.busy, app) ∧
      start_selection_sort app rows = (StartResult.busy, app) := by
  constructor <;> simp [start_insertion_sort, start_selection_sort, h]

/-- Witness for C4 on a concrete busy app state. -/
theorem claim_c4_witness :
    exAppBusy.sortThreadAlive = true ∧
      start_insertion_sort exAppBusy [] = (StartResult.busy, exAppBusy) ∧
        start_selection_sort exAppBusy [] = (StartResult.busy, exAppBusy) :=
  ⟨rfl, claim_c4 exAppBusy [] rfl⟩

/-- Claim C9: `load_data` with an empty input yields empty data and
handle lists, and a sort start with an empty row set signals NoData and
creates no background run (the app state is unchanged). -/
theorem claim_c9 :
    (∀ st : VState, (load_data st []).data = [] ∧
      (load_data st []).bar_items = [] ∧ (load_data st []).text_items = []) ∧
      ∀ app : AppState, app.sortThreadAlive = false →
        start_insertion_sort app [] = (StartResult.noData, app) ∧
          start_selection_sort app [] = (StartResult.noData, app) := by
  constructor
  · intro st
    refine ⟨?_, ?_, ?_⟩ <;> simp [load_data]
  · intro app h
    constructor <;> simp [start_insertion_sort, start_selection_sort, h]

/-- Witness for C9 on a concrete idle app state. -/
theorem claim_c9_witness :
    exAppIdle.sortThreadAlive = false ∧
      start_insertion_sort exAppIdle [] = (StartResult.noData, exAppIdle) ∧
        start_selection_sort exAppIdle [] = (StartResult.noData, exAppIdle) :=
  ⟨rfl, claim_c9.2 exAppIdle rfl⟩

/-- Claim C3: for every cancellation schedule (the flag may drop to
false at any checkpoint), both sorts leave `data` a permutation of the
input. -/
theorem claim_c3 (sig : Nat → Bool) (st : VState) (h : WF st) :
    List.Perm (insertion_sort sig st).data st.data ∧
      List.Perm (selection_sort sig st).data st.data :=
  ⟨(insertion_sort_results sig st h).2, (selection_sort_results sig st h).2⟩

/-- Witness for C3: a run on a concrete two-record state cancelled
after two flag reads. -/
theorem claim_c3_witness :
    WF ex1 ∧
      List.Perm (insertion_sort sigCancel ex1).data ex1.data ∧
        List.Perm (selection_sort sigCancel ex1).data ex1.data :=
  ⟨by decide, claim_c3 sigCancel ex1 (by decide)⟩

/-! ### Claim C6: bounds handling -/

/-- Claim C6 as stated is false for `swap_bars`: an out-of-range swap
does not fail with an IndexOutOfRange condition — it silently returns
the state unchanged.  Concretely, `swap_bars ex0 0 5` with `5` out of
range returns `ex0` itself. -/
theorem claim_c6_counterexample :
    ¬ (∀ (st : VState) (i j : Nat), i ≠ j → st.bar_items.length ≤ j →
        swap_bars st i j ≠ st) := by
  intro hclaim
  exact hclaim ex0 0 5 (by decide) (by decide) (by decide)

/-- Claim C6 (amended): a raw record access `data[i]` fails with
IndexOutOfRange outside `[0, len(data))` and succeeds inside, but the
index-taking visual operations are defensive no-ops on out-of-range
indices: `swap_bars` returns the state unchanged, and `highlight`
silently skips an out-of-range index. -/
theorem claim_c6 :
    (∀ (st : VState) (i : Nat), st.data.length ≤ i →
        dataGet st i = Except.error IdxErr.indexOutOfRange) ∧
      (∀ (st : VState) (i : Nat), i < st.data.length →
        dataGet st i = Except.ok (st.data.getD i default)) ∧
      (∀ (st : VState) (i j : Nat),
        ¬(i < st.bar_items.length ∧ j < st.bar_items.length) →
          swap_bars st i j = st) ∧
      ∀ (st : VState) (i : Nat) (col : String), st.bar_items.length ≤ i →
        highlight st [i] col = st := by
  refine ⟨?_, ?_, swap_bars_oob, ?_⟩
  · intro st i hle
    unfold dataGet
    rw [List.getElem?_eq_none hle]
  · intro st i hlt
    unfold dataGet
    rw [List.getElem?_eq_getElem hlt]
    rw [List.getD_eq_getElem st.data default hlt]
  · intro st i col hle
    unfold highlight
    simp only [List.foldl_cons, List.foldl_nil, if_neg (Nat.not_lt.mpr hle)]

/-- Witness for the amended C6 on a concrete one-record state. -/
theorem claim_c6_witness :
    ex0.data.length ≤ 5 ∧
      dataGet ex0 5 = Except.error IdxErr.indexOutOfRange ∧
      dataGet ex0 0 = Except.ok (ex0.data.getD 0 default) ∧
      swap_bars ex0 5 6 = ex0 ∧
      highlight ex0 [9] "#cc241d" = ex0 :=
  ⟨by decide, claim_c6.1 ex0 5 (by decide), claim_c6.2.1 ex0 0 (by decide),
    claim_c6.2.2.1 ex0 5 6 (by decide), claim_c6.2.2.2 ex0 9 "#cc241d" (by decide)⟩

/-! ### Claim C10: exit state of the sorts -/

theorem itemFill_setFill (c : Canvas) (n : Nat) (f : String) (m : Nat) :
    itemFill (canvasSetFill c n f) m =
      if m = n then (itemFill c m).map (fun _ => f) else itemFill c m := by
  unfold itemFill canvasSetFill
  rw [canvasFind_modify]
  by_cases h : m = n
  · subst h
    cases canvasFind c m <;> simp
  · simp [h]

theorem isSome_canvasFind_setFill (c : Canvas) (n : Nat) (f : String) (m : Nat) :
    (canvasFind (canvasSetFill c n f) m).isSome = (canvasFind c m).isSome := by
  unfold canvasSetFill
  rw [canvasFind_modify]
  by_cases h : m = n
  · subst h
    cases canvasFind c m <;> simp
  · simp [h]

theorem isSome_of_coords_ne_nil (c : Canvas) (n : Nat)
    (h : canvasCoords c n ≠ []) : (canvasFind c n).isSome = true := by
  unfold canvasCoords at h
  cases hf : canvasFind c n with
  | none => rw [hf] at h; simp at h
  | some it => simp [hf]

theorem foldl_setFill_keeps (bar : List Nat) (col : String) (b : Nat) :
    ∀ (idxs : List Nat) (c : Canvas),
      itemFill c b = some col →
      itemFill (idxs.foldl
        (fun c i => if i < bar.length then canvasSetFill c (bar.getD i 0) col else c)
        c) b = some col := by
  intro idxs
  induction idxs with
  | nil => intro c h; exact h
  | cons a rest ih =>
    intro c h
    rw [List.foldl_cons]
    apply ih
    split
    · rw [itemFill_setFill]
      split
      · rw [h]; rfl
      · exact h
    · exact h

theorem foldl_setFill_sets (bar : List Nat) (col : String) (b : Nat) :
    ∀ (idxs : List Nat) (c : Canvas) (k : Nat),
      k ∈ idxs → k < bar.length → bar.getD k 0 = b →
      (canvasFind c b).isSome = true →
      itemFill (idxs.foldl
        (fun c i => if i < bar.length then canvasSetFill c (bar.getD i 0) col else c)
        c) b = some col := by
  intro idxs
  induction idxs with
  | nil => intro c k hk; simp at hk
  | cons a rest ih =>
    intro c k hk hklen hgetD hsome
    rw [List.foldl_cons]
    rcases List.mem_cons.mp hk with heq | hkrest
    · subst heq
      rw [if_pos hklen, hgetD]
      apply foldl_setFill_keeps
      rw [itemFill_setFill, if_pos rfl]
      unfold itemFill
      cases hf : canvasFind c b with
      | none => rw [hf] at hsome; simp at hsome
      | some it => simp
    · apply ih _ k hkrest hklen hgetD
      split
      · rw [isSome_canvasFind_setFill]; exact hsome
      · exact hsome

theorem highlight_fill_all (st : VState) (col : String) (b n : Nat)
    (hn : st.bar_items.length = n)
    (hb : b ∈ st.bar_items)
    (hsome : (canvasFind st.canvas b).isSome = true) :
    itemFill (highlight st (List.range n) col).canvas b =
      some col := by
  subst hn
  obtain ⟨k, hklen, hgetD⟩ := List.mem_iff_getElem.mp hb
  show itemFill (List.foldl _ st.canvas (List.range st.bar_items.length)) b = some col
  exact foldl_setFill_sets st.bar_items col b (List.range st.bar_items.length)
    st.canvas k (List.mem_range.mpr hklen) hklen
    (by rw [List.getD_eq_getElem st.bar_items 0 hklen]; exact hgetD) hsome

/-- Claim C10: whenever either sort returns — completed or cancelled at
any checkpoint — the `running` flag is false on exit, and the final
whole-sequence highlight has been applied: every bar is filled with the
"sorted" color `#388e3c`, even when the data is not actually sorted. -/
theorem claim_c10 (sig : Nat → Bool) (st : VState) (h : WF st) :
    (insertion_sort sig st).running = false ∧
      (selection_sort sig st).running = false ∧
      (∀ b ∈ (insertion_sort sig st).bar_items,
        itemFill (insertion_sort sig st).canvas b = some "#388e3c") ∧
      ∀ b ∈ (selection_sort sig st).bar_items,
        itemFill (selection_sort sig st).canvas b = some "#388e3c" := by
  refine ⟨rfl, rfl, ?_, ?_⟩
  · intro b hb
    obtain ⟨w, p⟩ := insOuterV_results sig (st.data.length - 1)
      { st with running := true } 0 1 h
    have hb' : b ∈ (insOuterV sig { st with running := true } 0 1
        (st.data.length - 1)).1.bar_items := hb
    have hlen : (insOuterV sig { st with running := true } 0 1
        (st.data.length - 1)).1.bar_items.length = st.data.length :=
      (w.1).symm.trans p.length_eq
    show itemFill (highlight (insOuterV sig { st with running := true } 0 1
        (st.data.length - 1)).1 (List.range st.data.length) "#388e3c").canvas b =
      some "#388e3c"
    exact highlight_fill_all _ _ b st.data.length hlen hb'
      (isSome_of_coords_ne_nil _ _ (w.2.2 b hb'))
  · intro b hb
    obtain ⟨w, p⟩ := selOuterV_results sig st.data.length st.data.length
      { st with running := true } 0 0 h
    have hb' : b ∈ (selOuterV sig st.data.length { st with running := true } 0 0
        st.data.length).1.bar_items := hb
    have hlen : (selOuterV sig st.data.length { st with running := true } 0 0
        st.data.length).1.bar_items.length = st.data.length :=
      (w.1).symm.trans p.length_eq
    show itemFill (highlight (selOuterV sig st.data.length { st with running := true } 0 0
        st.data.length).1 (List.range st.data.length) "#388e3c").canvas b =
      some "#388e3c"
    exact highlight_fill_all _ _ b st.data.length hlen hb'
      (isSome_of_coords_ne_nil _ _ (w.2.2 b hb'))

/-- Witness for C10: a cancelled run on a concrete two-record state. -/
theorem claim_c10_witness :
    WF ex1 ∧
      ((insertion_sort sigCancel ex1).running = false ∧
        (selection_sort sigCancel ex1).running = false ∧
        (∀ b ∈ (insertion_sort sigCancel ex1).bar_items,
          itemFill (insertion_sort sigCancel ex1).canvas b = some "#388e3c") ∧
        ∀ b ∈ (selection_sort sigCancel ex1).bar_items,
          itemFill (selection_sort sigCancel ex1).canvas b = some "#388e3c") :=
  ⟨by decide, claim_c10 sigCancel ex1 (by decide)⟩

/-! ### Claim C2: index-handle alignment -/

theorem getElem?_listSwap [Inhabited α] (l : List α) (i j : Nat)
    (hi : i < l.length) (hj : j < l.length) (k : Nat) :
    (listSwap l i j)[k]? = l[if k = i then j else if k = j then i else k]? := by
  by_cases hkj : k = j
  · subst hkj
    rw [getElem?_listSwap_right l i k hi hj]
    by_cases hji : k = i
    · subst hji; simp
    · simp [hji]
  · by_cases hki : k = i
    · subst hki
      have hij : k ≠ j := hkj
      rw [getElem?_listSwap_left l k j hij hi hj]
      simp
    · rw [getElem?_listSwap_ne l i j k hki hkj]
      simp [hki, hkj]

theorem swap_bars_lists (st : VState) (i j : Nat) :
    swap_bars st i j = st ∨
      ((swap_bars st i j).data = listSwap st.data i j ∧
        (swap_bars st i j).bar_items = listSwap st.bar_items i j ∧
        (swap_bars st i j).text_items = listSwap st.text_items i j ∧
        i < st.bar_items.length ∧ j < st.bar_items.length ∧ i ≠ j) := by
  by_cases hij : i = j
  · left; subst hij; exact swap_bars_self st i
  · by_cases hb : i < st.bar_items.length ∧ j < st.bar_items.length
    · by_cases hc : canvasCoords st.canvas (st.bar_items.getD i 0) = [] ∨
          canvasCoords st.canvas (st.bar_items.getD j 0) = []
      · left; simp only [swap_bars, if_neg hij, if_pos hb, if_pos hc]
      · right
        refine ⟨?_, ?_, ?_, hb.1, hb.2, hij⟩ <;>
          · simp only [swap_bars, if_neg hij, if_pos hb, if_neg hc]
            simp [move_bar_data, move_bar_bar_items, move_bar_text_items]
    · left; exact swap_bars_oob st i j hb

/-- Claim C2: after `load_data` the three parallel lists have equal
length; `swap_bars` either leaves the state identically unchanged or
applies the same transposition of positions to `data`, `bar_items` and
`text_items` in a single transition (so the handle at position `k`
always belongs to the record at position `k`), preserving the length
alignment; and the remaining operations (`highlight`, `reset_colors`,
`move_bar`) do not touch the three lists at all. -/
theorem claim_c2 :
    (∀ (st : VState) (rows : List Record),
      (load_data st rows).data.length = (load_data st rows).bar_items.length ∧
        (load_data st rows).bar_items.length = (load_data st rows).text_items.length) ∧
      (∀ (st : VState) (i j : Nat),
        st.data.length = st.bar_items.length →
        st.bar_items.length = st.text_items.length →
          ((swap_bars st i j).data.length = (swap_bars st i j).bar_items.length ∧
            (swap_bars st i j).bar_items.length = (swap_bars st i j).text_items.length) ∧
            (swap_bars st i j = st ∨
              ∀ k : Nat,
                (swap_bars st i j).data[k]? =
                    st.data[if k = i then j else if k = j then i else k]? ∧
                  (swap_bars st i j).bar_items[k]? =
                    st.bar_items[if k = i then j else if k = j then i else k]? ∧
                  (swap_bars st i j).text_items[k]? =
                    st.text_items[if k = i then j else if k = j then i else k]?)) ∧
      ∀ (st : VState) (idxs : List Nat) (col : String) (idx : Nat) (dx dy : ℚ)
        (steps : Nat),
        (highlight st idxs col).data = st.data ∧
          (highlight st idxs col).bar_items = st.bar_items ∧
          (highlight st idxs col).text_items = st.text_items ∧
          (reset_colors st).data = st.data ∧
          (reset_colors st).bar_items = st.bar_items ∧
          (reset_colors st).text_items = st.text_items ∧
          (move_bar st idx dx dy steps).data = st.data ∧
          (move_bar st idx dx dy steps).bar_items = st.bar_items ∧
          (move_bar st idx dx dy steps).text_items = st.text_items := by
  refine ⟨?_, ?_, ?_⟩
  · intro st rows
    obtain ⟨e1, e2, e3⟩ := load_data_lengths st rows
    constructor
    · rw [e2, e1]
    · rw [e2, e3]
  · intro st i j h1 h2
    rcases swap_bars_lists st i j with hno | ⟨e1, e2, e3, hi, hj, hij⟩
    · rw [hno]
      exact ⟨⟨h1, h2⟩, Or.inl rfl⟩
    · constructor
      · rw [e1, e2, e3, length_listSwap, length_listSwap, length_listSwap]
        exact ⟨h1, h2⟩
      · right
        intro k
        refine ⟨?_, ?_, ?_⟩
        · rw [e1]; exact getElem?_listSwap st.data i j (h1 ▸ hi) (h1 ▸ hj) k
        · rw [e2]; exact getElem?_listSwap st.bar_items i j hi hj k
        · rw [e3]; exact getElem?_listSwap st.text_items i j (h2 ▸ hi) (h2 ▸ hj) k
  · intro st idxs col idx dx dy steps
    exact ⟨highlight_data st idxs col, highlight_bar_items st idxs col,
      highlight_text_items st idxs col, reset_colors_data st,
      reset_colors_bar_items st, reset_colors_text_items st,
      move_bar_data st idx dx dy steps, move_bar_bar_items st idx dx dy steps,
      move_bar_text_items st idx dx dy steps⟩

/-- Witness for C2: the swap conjunct applied to a concrete aligned
two-bar state. -/
theorem claim_c2_witness :
    ex1.data.length = ex1.bar_items.length ∧
      ex1.bar_items.length = ex1.text_items.length ∧
      ((swap_bars ex1 0 1).data.length = (swap_bars ex1 0 1).bar_items.length ∧
        (swap_bars ex1 0 1).bar_items.length = (swap_bars ex1 0 1).text_items.length) ∧
      (swap_bars ex1 0 1 = ex1 ∨
        ∀ k : Nat,
          (swap_bars ex1 0 1).data[k]? =
              ex1.data[if k = 0 then 1 else if k = 1 then 0 else k]? ∧
            (swap_bars ex1 0 1).bar_items[k]? =
              ex1.bar_items[if k = 0 then 1 else if k = 1 then 0 else k]? ∧
            (swap_bars ex1 0 1).text_items[k]? =
              ex1.text_items[if k = 0 then 1 else if k = 1 then 0 else k]?) := by
  obtain ⟨a, b⟩ := claim_c2.2.1 ex1 0 1 (by decide) (by decide)
  exact ⟨by decide, by decide, a, b⟩

/-! ### Sortedness of the uncancelled insertion sort -/

theorem sortedByKey_short (l : List Record) (h : l.length ≤ 1) : SortedByKey l := by
  cases l with
  | nil => exact List.Pairwise.nil
  | cons a t =>
    cases t with
    | nil => exact List.pairwise_singleton _ a
    | cons b t2 => simp at h

theorem keyAt_mono_of_sortedBelow (l : List Record) (h : SortedBelow l l.length) :
    ∀ v u, u ≤ v → v < l.length → keyAt l u ≤ keyAt l v := by
  intro v
  induction v with
  | zero =>
    intro u hu _
    have hu0 : u = 0 := by omega
    rw [hu0]
  | succ v ihv =>
    intro u hu hv
    by_cases he : u = v + 1
    · rw [he]
    · have h1 : u ≤ v := by omega
      exact le_trans (ihv u h1 (by omega)) (h v hv)

theorem sortedByKey_of_sortedBelow (l : List Record) (h : SortedBelow l l.length) :
    SortedByKey l := by
  unfold SortedByKey
  rw [List.pairwise_iff_getElem]
  intro a b ha hb hab
  have hm := keyAt_mono_of_sortedBelow l h b a (le_of_lt hab) hb
  unfold keyAt at hm
  rw [List.getD_eq_getElem l default ha, List.getD_eq_getElem l default hb] at hm
  exact hm

theorem if_sigTrue {α : Sort _} (c : Nat) (a b : α) :
    (if sigTrue c = true then a else b) = a := rfl

theorem insInnerV_sorted (i : Nat) :
    ∀ (p : Nat) (st : VState) (c : Nat),
      WF st → i < st.data.length → p ≤ i →
      (∀ u, u + 1 < p → keyAt st.data u ≤ keyAt st.data (u + 1)) →
      (∀ u, p ≤ u → u + 1 ≤ i → keyAt st.data u ≤ keyAt st.data (u + 1)) →
      (0 < p → p < i → keyAt st.data (p - 1) ≤ keyAt st.data (p + 1)) →
      ∀ u, u + 1 ≤ i →
        keyAt (insInnerV sigTrue st c p).1.data u ≤
          keyAt (insInnerV sigTrue st c p).1.data (u + 1) := by
  intro p
  induction p with
  | zero =>
    intro st c _ _ _ _ hb _ u hu
    exact hb u (Nat.zero_le u) hu
  | succ q ih =>
    intro st c hWF hilen hpi ha hb hc
    rw [insInnerV_succ]
    by_cases hkey : keyAt st.data q > keyAt st.data (q + 1)
    · rw [if_pos hkey, if_sigTrue]
      have hWF1 : WF (highlight st [q + 1, q] "#cc241d") := (WF_highlight _ _ _).mpr hWF
      have hq1 : q + 1 < (highlight st [q + 1, q] "#cc241d").data.length := by
        rw [highlight_data]; omega
      have hq : q < (highlight st [q + 1, q] "#cc241d").data.length := by
        rw [highlight_data]; omega
      have hne : (q + 1 : Nat) ≠ q := by omega
      obtain ⟨ed, _, _⟩ :=
        swap_bars_spec (highlight st [q + 1, q] "#cc241d") (q + 1) q hWF1 hne hq1 hq
      rw [highlight_data] at ed
      have hWF2 := swap_bars_WF (highlight st [q + 1, q] "#cc241d") (q + 1) q hWF1
      have hWF3 : WF (highlight
          (swap_bars (highlight st [q + 1, q] "#cc241d") (q + 1) q) [q] "#66bb6a") :=
        (WF_highlight _ _ _).mpr hWF2
      refine ih _ (c + 1) hWF3 ?_ (by omega) ?_ ?_ ?_
      · rw [highlight_data, ed, length_listSwap]
        exact hilen
      · intro u hu
        rw [highlight_data, ed,
          keyAt_listSwap_ne st.data (q + 1) q u (by omega) (by omega),
          keyAt_listSwap_ne st.data (q + 1) q (u + 1) (by omega) (by omega)]
        exact ha u (by omega)
      · intro u h1 h2
        rw [highlight_data, ed]
        by_cases hq0 : u = q
        · rw [hq0]
          rw [keyAt_listSwap_right st.data (q + 1) q (by omega) (by omega),
            keyAt_listSwap_left st.data (q + 1) q hne (by omega) (by omega)]
          exact le_of_lt hkey
        · by_cases hq2 : u = q + 1
          · rw [hq2]
            rw [keyAt_listSwap_left st.data (q + 1) q hne (by omega) (by omega),
              keyAt_listSwap_ne st.data (q + 1) q (q + 1 + 1) (by omega) (by omega)]
            have := hc (by omega) (by omega)
            simpa using this
          · rw [keyAt_listSwap_ne st.data (q + 1) q u (by omega) (by omega),
              keyAt_listSwap_ne st.data (q + 1) q (u + 1) (by omega) (by omega)]
            exact hb u (by omega) h2
      · intro h1 h2
        rw [highlight_data, ed,
          keyAt_listSwap_ne st.data (q + 1) q (q - 1) (by omega) (by omega),
          keyAt_listSwap_left st.data (q + 1) q hne (by omega) (by omega)]
        have := ha (q - 1) (by omega)
        rwa [Nat.sub_add_cancel h1] at this
    · rw [if_neg hkey]
      intro u hu
      by_cases hu1 : u + 1 ≤ q
      · exact ha u (by omega)
      · by_cases hu2 : u = q
        · rw [hu2]
          exact le_of_not_lt hkey
        · exact hb u (by omega) hu

theorem insOuterV_sorted (n : Nat) :
    ∀ (r : Nat) (st : VState) (c i : Nat),
      WF st → st.data.length = n → 1 ≤ i → i + r = n →
      (∀ u, u + 1 < i → keyAt st.data u ≤ keyAt st.data (u + 1)) →
      SortedBelow (insOuterV sigTrue st c i r).1.data n := by
  intro r
  induction r with
  | zero =>
    intro st c i _ _ _ hin ha u hu
    exact ha u (by omega)
  | succ r ih =>
    intro st c i hWF hlen h1 hin ha
    rw [insOuterV_succ, if_sigTrue]
    have hWF1 : WF (highlight st [i] "#fdd835") := (WF_highlight _ _ _).mpr hWF
    have hil : i < (highlight st [i] "#fdd835").data.length := by
      rw [highlight_data]; omega
    have inner := insInnerV_sorted i i (highlight st [i] "#fdd835") (c + 1) hWF1 hil
      (le_refl i)
      (by intro u hu; rw [highlight_data]; exact ha u hu)
      (by intro u hu1 hu2; omega)
      (by intro _ hlt; omega)
    obtain ⟨wIn, pIn⟩ := insInnerV_results sigTrue i (highlight st [i] "#fdd835")
      (c + 1) hWF1
    refine ih _ _ (i + 1) ((WF_reset_colors _).mpr wIn) ?_ (by omega) (by omega) ?_
    · rw [reset_colors_data, pIn.length_eq, highlight_data]
      exact hlen
    · intro u hu
      rw [reset_colors_data]
      exact inner u (by omega)

theorem insertion_sort_sorted (st : VState) (h : WF st) :
    SortedByKey (insertion_sort sigTrue st).data := by
  rw [insertion_sort_eq]
  show SortedByKey (highlight (insOuterV sigTrue { st with running := true } 0 1
      (st.data.length - 1)).1 (List.range st.data.length) "#388e3c").data
  rw [highlight_data]
  by_cases hn : st.data.length ≤ 1
  · have h0 : st.data.length - 1 = 0 := by omega
    rw [h0]
    exact sortedByKey_short _ hn
  · have h0 := insOuterV_sorted st.data.length (st.data.length - 1)
      { st with running := true } 0 1 ((WF_running st true).mpr h) rfl (le_refl 1)
      (by omega) (by intro u hu; omega)
    obtain ⟨_, pOut⟩ := insOuterV_results sigTrue (st.data.length - 1)
      { st with running := true } 0 1 ((WF_running st true).mpr h)
    apply sortedByKey_of_sortedBelow
    rw [pOut.length_eq]
    exact h0

/-! ### The selection-sort scan: earliest strict minimum -/

theorem selInnerV_scan (i : Nat) :
    ∀ (r : Nat) (st : VState) (c m j : Nat),
      i ≤ m → m < j →
      (∀ k, i ≤ k → k < j → keyAt st.data m ≤ keyAt st.data k) →
      (∀ k, i ≤ k → k < m → keyAt st.data m < keyAt st.data k) →
      i ≤ (selInnerV sigTrue i st c m j r).2.2 ∧
        (selInnerV sigTrue i st c m j r).2.2 < j + r ∧
        (∀ k, i ≤ k → k < j + r →
          keyAt st.data (selInnerV sigTrue i st c m j r).2.2 ≤ keyAt st.data k) ∧
        ∀ k, i ≤ k → k < (selInnerV sigTrue i st c m j r).2.2 →
          keyAt st.data (selInnerV sigTrue i st c m j r).2.2 < keyAt st.data k := by
  intro r
  induction r with
  | zero =>
    intro st c m j him hmj hP1 hP2
    refine ⟨him, ?_, ?_, ?_⟩
    · show m < j + 0
      omega
    · intro k hk1 hk2
      show keyAt st.data m ≤ keyAt st.data k
      exact hP1 k hk1 (by omega)
    · intro k hk1 hk2
      show keyAt st.data m < keyAt st.data k
      have hk2' : k < m := hk2
      exact hP2 k hk1 hk2'
  | succ r ihr =>
    intro st c m j him hmj hP1 hP2
    rw [selInnerV_succ, if_sigTrue]
    have hadd : j + 1 + r = j + (r + 1) := by omega
    rw [← hadd]
    by_cases hcmp : keyAt st.data j < keyAt st.data m
    · rw [if_pos hcmp]
      refine ihr _ (c + 1) j (j + 1) (by omega) (by omega) ?_ ?_
      · intro k hk1 hk2
        show keyAt st.data j ≤ keyAt st.data k
        by_cases hkj : k = j
        · rw [hkj]
        · exact le_trans (le_of_lt hcmp) (hP1 k hk1 (by omega))
      · intro k hk1 hk2
        show keyAt st.data j < keyAt st.data k
        exact lt_of_lt_of_le hcmp (hP1 k hk1 hk2)
    · rw [if_neg hcmp]
      have le1 : keyAt st.data m ≤ keyAt st.data j := le_of_not_lt hcmp
      refine ihr _ (c + 1) m (j + 1) him (by omega) ?_ ?_
      · intro k hk1 hk2
        show keyAt st.data m ≤ keyAt st.data k
        by_cases hkj : k = j
        · rw [hkj]; exact le1
        · exact hP1 k hk1 (by omega)
      · intro k hk1 hk2
        show keyAt st.data m < keyAt st.data k
        exact hP2 k hk1 hk2

theorem selOuterV_sorted (n : Nat) :
    ∀ (r : Nat) (st : VState) (c i : Nat),
      WF st → st.data.length = n → i + r = n →
      (∀ u, u + 1 < i → keyAt st.data u ≤ keyAt st.data (u + 1)) →
      (∀ u v, u < i → i ≤ v → v < n → keyAt st.data u ≤ keyAt st.data v) →
      SortedBelow (selOuterV sigTrue n st c i r).1.data n := by
  intro r
  induction r with
  | zero =>
    intro st c i _ _ hin hA _ u hu
    exact hA u (by omega)
  | succ r ih =>
    intro st c i hWF hlen hin hA hB
    have hi : i < n := by omega
    rw [selOuterV_succ]
    simp only [if_sigTrue]
    have hWF1 : WF (highlight st [i] "#fdd835") := (WF_highlight _ _ _).mpr hWF
    obtain ⟨wS, eS⟩ := selInnerV_state sigTrue i (n - (i + 1))
      (highlight st [i] "#fdd835") (c + 1) i (i + 1) hWF1
    rw [highlight_data] at eS
    have scan := selInnerV_scan i (n - (i + 1)) (highlight st [i] "#fdd835")
      (c + 1) i (i + 1) (le_refl i) (by omega)
      (by intro k hk1 hk2
          show keyAt st.data i ≤ keyAt st.data k
          have hk : k = i := by omega
          rw [hk])
      (by intro k hk1 hk2; omega)
    have hadd2 : (i + 1) + (n - (i + 1)) = n := by omega
    rw [hadd2] at scan
    obtain ⟨hm1, hm2, hP1, hP2⟩ := scan
    by_cases hmi : (selInnerV sigTrue i (highlight st [i] "#fdd835") (c + 1) i (i + 1)
        (n - (i + 1))).2.2 = i
    · rw [if_neg (not_not_intro hmi)]
      refine ih _ _ (i + 1) ((WF_highlight _ _ _).mpr wS) ?_ (by omega) ?_ ?_
      · rw [highlight_data, eS]; exact hlen
      · intro u hu
        rw [highlight_data, eS]
        by_cases hui : u + 1 = i
        · rw [hui]
          exact hB u i (by omega) (le_refl i) hi
        · exact hA u (by omega)
      · intro u v hu hv1 hv2
        rw [highlight_data, eS]
        by_cases hui : u = i
        · rw [hui]
          have hv := hP1 v (by omega) hv2
          rw [hmi] at hv
          exact hv
        · exact hB u v (by omega) (by omega) hv2
    · rw [if_pos hmi]
      have him' : i < (selInnerV sigTrue i (highlight st [i] "#fdd835") (c + 1) i (i + 1)
          (n - (i + 1))).2.2 := by omega
      have hiS : i < (selInnerV sigTrue i (highlight st [i] "#fdd835") (c + 1) i (i + 1)
          (n - (i + 1))).1.data.length := by rw [eS]; omega
      have hmS : (selInnerV sigTrue i (highlight st [i] "#fdd835") (c + 1) i (i + 1)
          (n - (i + 1))).2.2 < (selInnerV sigTrue i (highlight st [i] "#fdd835") (c + 1) i
          (i + 1) (n - (i + 1))).1.data.length := by rw [eS]; omega
      have hneim : i ≠ (selInnerV sigTrue i (highlight st [i] "#fdd835") (c + 1) i (i + 1)
          (n - (i + 1))).2.2 := by omega
      obtain ⟨ed, _, _⟩ := swap_bars_spec _ i
        (selInnerV sigTrue i (highlight st [i] "#fdd835") (c + 1) i (i + 1)
          (n - (i + 1))).2.2 wS hneim hiS hmS
      rw [eS] at ed
      have hWFsw := swap_bars_WF _ i
        (selInnerV sigTrue i (highlight st [i] "#fdd835") (c + 1) i (i + 1)
          (n - (i + 1))).2.2 wS
      refine ih _ _ (i + 1) ((WF_highlight _ _ _).mpr hWFsw) ?_ (by omega) ?_ ?_
      · rw [highlight_data, ed, length_listSwap]; exact hlen
      · intro u hu
        rw [highlight_data, ed]
        by_cases hui : u + 1 = i
        · rw [keyAt_listSwap_ne st.data i _ u (by omega) (by omega), hui,
            keyAt_listSwap_left st.data i _ (by omega) (by omega) (by omega)]
          exact hB u _ (by omega) (by omega) (by omega)
        · rw [keyAt_listSwap_ne st.data i _ u (by omega) (by omega),
            keyAt_listSwap_ne st.data i _ (u + 1) (by omega) (by omega)]
          exact hA u (by omega)
      · intro u v hu hv1 hv2
        rw [highlight_data, ed]
        by_cases hvm : v = (selInnerV sigTrue i (highlight st [i] "#fdd835") (c + 1) i
            (i + 1) (n - (i + 1))).2.2
        · rw [hvm, keyAt_listSwap_right st.data i _ (by omega) (by omega)]
          by_cases hui : u = i
          · rw [hui, keyAt_listSwap_left st.data i _ (by omega) (by omega) (by omega)]
            exact hP1 i (le_refl i) hi
          · rw [keyAt_listSwap_ne st.data i _ u (by omega) (by omega)]
            exact hB u i (by omega) (le_refl i) hi
        · rw [keyAt_listSwap_ne st.data i _ v (by omega) hvm]
          by_cases hui : u = i
          · rw [hui, keyAt_listSwap_left st.data i _ (by omega) (by omega) (by omega)]
            exact hP1 v (by omega) hv2
          · rw [keyAt_listSwap_ne st.data i _ u (by omega) (by omega)]
            exact hB u v (by omega) (by omega) hv2

theorem selection_sort_sorted (st : VState) (h : WF st) :
    SortedByKey (selection_sort sigTrue st).data := by
  rw [selection_sort_eq]
  show SortedByKey (highlight (selOuterV sigTrue st.data.length
      { st with running := true } 0 0 st.data.length).1
      (List.range st.data.length) "#388e3c").data
  rw [highlight_data]
  have h0 := selOuterV_sorted st.data.length st.data.length
    { st with running := true } 0 0 ((WF_running st true).mpr h) rfl (by omega)
    (by intro u hu; omega) (by intro u v hu _ _; omega)
  obtain ⟨_, pOut⟩ := selOuterV_results sigTrue st.data.length st.data.length
    { st with running := true } 0 0 ((WF_running st true).mpr h)
  apply sortedByKey_of_sortedBelow
  rw [pOut.length_eq]
  exact h0

/-- Claim C1: an uncancelled run of either sort leaves `data`
non-decreasing by the key (the `marks` field, index 3 of a row) and a
permutation of the input: no record is created, lost or duplicated. -/
theorem claim_c1 (st : VState) (h : WF st) :
    (SortedByKey (insertion_sort sigTrue st).data ∧
      List.Perm (insertion_sort sigTrue st).data st.data) ∧
      SortedByKey (selection_sort sigTrue st).data ∧
        List.Perm (selection_sort sigTrue st).data st.data :=
  ⟨⟨insertion_sort_sorted st h, (insertion_sort_results sigTrue st h).2⟩,
    selection_sort_sorted st h, (selection_sort_results sigTrue st h).2⟩

/-- Witness for C1 on a concrete three-record state with keys 30, 10, 20. -/
theorem claim_c1_witness :
    WF ex2 ∧
      ((SortedByKey (insertion_sort sigTrue ex2).data ∧
        List.Perm (insertion_sort sigTrue ex2).data ex2.data) ∧
        SortedByKey (selection_sort sigTrue ex2).data ∧
          List.Perm (selection_sort sigTrue ex2).data ex2.data) :=
  ⟨by decide, claim_c1 ex2 (by decide)⟩

/-- Claim C7: in a selection-sort pass at outer position `i`, the scan
tracks the minimum with a strict less-than comparison, so the returned
index is the earliest index attaining the minimum key on `[i, n)`; and
the pass swaps exactly when that index differs from `i` (otherwise the
data is untouched). -/
theorem claim_c7 (st : VState) (c i : Nat) (h : WF st)
    (hi : i < st.data.length) :
    (i ≤ (selInnerV sigTrue i (highlight st [i] "#fdd835") (c + 1) i (i + 1)
        (st.data.length - (i + 1))).2.2 ∧
      (selInnerV sigTrue i (highlight st [i] "#fdd835") (c + 1) i (i + 1)
        (st.data.length - (i + 1))).2.2 < st.data.length) ∧
      (∀ k, i ≤ k → k < st.data.length →
        keyAt st.data (selInnerV sigTrue i (highlight st [i] "#fdd835") (c + 1) i
          (i + 1) (st.data.length - (i + 1))).2.2 ≤ keyAt st.data k) ∧
      (∀ k, i ≤ k →
        k < (selInnerV sigTrue i (highlight st [i] "#fdd835") (c + 1) i (i + 1)
          (st.data.length - (i + 1))).2.2 →
        keyAt st.data (selInnerV sigTrue i (highlight st [i] "#fdd835") (c + 1) i
          (i + 1) (st.data.length - (i + 1))).2.2 < keyAt st.data k) ∧
      (selOuterV sigTrue st.data.length st c i 1).1.data =
        (if (selInnerV sigTrue i (highlight st [i] "#fdd835") (c + 1) i (i + 1)
            (st.data.length - (i + 1))).2.2 = i then st.data
          else listSwap st.data i
            (selInnerV sigTrue i (highlight st [i] "#fdd835") (c + 1) i (i + 1)
              (st.data.length - (i + 1))).2.2) := by
  have hWF1 : WF (highlight st [i] "#fdd835") := (WF_highlight _ _ _).mpr h
  obtain ⟨wS, eS⟩ := selInnerV_state sigTrue i (st.data.length - (i + 1))
    (highlight st [i] "#fdd835") (c + 1) i (i + 1) hWF1
  rw [highlight_data] at eS
  have scan := selInnerV_scan i (st.data.length - (i + 1)) (highlight st [i] "#fdd835")
    (c + 1) i (i + 1) (le_refl i) (by omega)
    (by intro k hk1 hk2
        show keyAt st.data i ≤ keyAt st.data k
        have hk : k = i := by omega
        rw [hk])
    (by intro k hk1 hk2; omega)
  have hadd2 : (i + 1) + (st.data.length - (i + 1)) = st.data.length := by omega
  rw [hadd2] at scan
  obtain ⟨hm1, hm2, hP1, hP2⟩ := scan
  refine ⟨⟨hm1, hm2⟩, hP1, hP2, ?_⟩
  rw [selOuterV_succ]
  simp only [if_sigTrue]
  by_cases hmi : (selInnerV sigTrue i (highlight st [i] "#fdd835") (c + 1) i (i + 1)
      (st.data.length - (i + 1))).2.2 = i
  · rw [if_neg (not_not_intro hmi), if_pos hmi]
    show (highlight (selInnerV sigTrue i (highlight st [i] "#fdd835") (c + 1) i (i + 1)
        (st.data.length - (i + 1))).1 (List.range (i + 1)) "#66bb6a").data = st.data
    rw [highlight_data]
    exact eS
  · rw [if_pos hmi, if_neg hmi]
    have hiS : i < (selInnerV sigTrue i (highlight st [i] "#fdd835") (c + 1) i (i + 1)
        (st.data.length - (i + 1))).1.data.length := by rw [eS]; omega
    have hmS : (selInnerV sigTrue i (highlight st [i] "#fdd835") (c + 1) i (i + 1)
        (st.data.length - (i + 1))).2.2 <
          (selInnerV sigTrue i (highlight st [i] "#fdd835") (c + 1) i (i + 1)
            (st.data.length - (i + 1))).1.data.length := by rw [eS]; omega
    have hneim : i ≠ (selInnerV sigTrue i (highlight st [i] "#fdd835") (c + 1) i (i + 1)
        (st.data.length - (i + 1))).2.2 := by omega
    obtain ⟨ed, _, _⟩ := swap_bars_spec _ i
      (selInnerV sigTrue i (highlight st [i] "#fdd835") (c + 1) i (i + 1)
        (st.data.length - (i + 1))).2.2 wS hneim hiS hmS
    rw [eS] at ed
    show (highlight (swap_bars (selInnerV sigTrue i (highlight st [i] "#fdd835") (c + 1) i
        (i + 1) (st.data.length - (i + 1))).1 i
        (selInnerV sigTrue i (highlight st [i] "#fdd835") (c + 1) i (i + 1)
          (st.data.length - (i + 1))).2.2) (List.range (i + 1)) "#66bb6a").data = _
    rw [highlight_data]
    exact ed

/-- Witness for C7 on the concrete three-record state (keys 30, 10, 20)
at outer position 0: the scan returns index 1 (key 10). -/
theorem claim_c7_witness :
    WF ex2 ∧ 0 < ex2.data.length ∧
      ((0 ≤ (selInnerV sigTrue 0 (highlight ex2 [0] "#fdd835") (0 + 1) 0 (0 + 1)
          (ex2.data.length - (0 + 1))).2.2 ∧
        (selInnerV sigTrue 0 (highlight ex2 [0] "#fdd835") (0 + 1) 0 (0 + 1)
          (ex2.data.length - (0 + 1))).2.2 < ex2.data.length) ∧
        (∀ k, 0 ≤ k → k < ex2.data.length →
          keyAt ex2.data (selInnerV sigTrue 0 (highlight ex2 [0] "#fdd835") (0 + 1) 0
            (0 + 1) (ex2.data.length - (0 + 1))).2.2 ≤ keyAt ex2.data k) ∧
        (∀ k, 0 ≤ k →
          k < (selInnerV sigTrue 0 (highlight ex2 [0] "#fdd835") (0 + 1) 0 (0 + 1)
            (ex2.data.length - (0 + 1))).2.2 →
          keyAt ex2.data (selInnerV sigTrue 0 (highlight ex2 [0] "#fdd835") (0 + 1) 0
            (0 + 1) (ex2.data.length - (0 + 1))).2.2 < keyAt ex2.data k) ∧
        (selOuterV sigTrue ex2.data.length ex2 0 0 1).1.data =
          (if (selInnerV sigTrue 0 (highlight ex2 [0] "#fdd835") (0 + 1) 0 (0 + 1)
              (ex2.data.length - (0 + 1))).2.2 = 0 then ex2.data
            else listSwap ex2.data 0
              (selInnerV sigTrue 0 (highlight ex2 [0] "#fdd835") (0 + 1) 0 (0 + 1)
                (ex2.data.length - (0 + 1))).2.2)) :=
  ⟨by decide, by decide, claim_c7 ex2 0 0 (by decide) (by decide)⟩
